import Mathlib

/-!
Verification of the normalization / fuzzy-matching / deduplication pipeline of the
apple-music-spotify-sync repository.

The JavaScript sources are shallowly embedded as Lean definitions:

* `TrackComparison` — the track comparison utility (duplicate detection): text
  cleaning, Levenshtein dynamic programming, string/track similarity and the
  tiered duplicate-detection loop `isTrackAlreadyInPlaylist`.
* `SpotifySearch` — the search service: query-strategy loop with rate-limit
  retry/backoff, and candidate scoring via the `string-similarity` library's
  Dice bigram coefficient.
* `SearchCache` — the cache fingerprint `generateTrackKey` (the MD5 digest is
  abstracted as an arbitrary fixed function of the hash input, which is all the
  stated properties depend on).
* `SongNormalizer` — the song-data normalizer: cleaning, version/feature
  extraction, title casing, search strings, numeric validation and the quality
  scorer, including the JavaScript regex-state (`lastIndex`) behaviour of the
  `/g`-flagged suspicious-pattern tests.

Strings are modelled over their character lists; JavaScript numbers are
modelled as `Nat`/`Int`/`ℚ` as appropriate (all arithmetic in the sources is
exact on the inputs of interest).  JavaScript regular expressions are embedded
as explicit matching functions on `List Char` that implement the concrete
patterns appearing in the sources (leftmost match, lazy/greedy quantifier
behaviour, `g`-flag match lists, case-insensitive comparison); ASCII case
folding and whitespace are used, which agrees with JavaScript on the inputs
considered.  Fuel arguments, where present, are bounded scans over the string
and are always supplied with sufficient fuel.

Spec-level definitions (`levClassic`, `specStringSimilarity`, `specJaccard`)
are written from the specification's wording and compared against the embedded
code by theorem.
-/

/-- ASCII lower-casing of a string, as JavaScript `toLowerCase` on ASCII data. -/
def jsToLower (s : String) : String := ⟨s.data.map Char.toLower⟩

/-- Trim whitespace from both ends of a character list (JavaScript `trim`). -/
def jsTrimList (l : List Char) : List Char :=
  ((l.dropWhile Char.isWhitespace).reverse.dropWhile Char.isWhitespace).reverse

/-- Trim whitespace from both ends of a string (JavaScript `trim`). -/
def jsTrim (s : String) : String := ⟨jsTrimList s.data⟩

/-- Helper for `splitChars`, carrying the reversed current piece. -/
def splitCharsAux (p : Char → Bool) : List Char → List Char → List String
  | acc, [] => [⟨acc.reverse⟩]
  | acc, c :: cs =>
    if p c then String.mk acc.reverse :: splitCharsAux p [] cs
    else splitCharsAux p (c :: acc) cs

/-- Split a string at every character satisfying `p`, keeping empty pieces
(the semantics of splitting on single separator characters). -/
def splitChars (p : Char → Bool) (s : String) : List String := splitCharsAux p [] s.data

/-- JavaScript word character, the class `\w` = `[A-Za-z0-9_]`. -/
def jsIsWordChar (c : Char) : Bool := c.isAlphanum || c = '_'

/-- Non-empty whitespace-separated tokens of a string: `str.split(/\s+/)`
followed by dropping empty pieces, as in the Jaccard computation. -/
def jsTokens (s : String) : List String :=
  (splitChars (fun c => c.isWhitespace) s).filter (fun t => t ≠ "")

/-- Helper for `jsDedup`, carrying the set of already-seen elements. -/
def jsDedupAux : List String → List String → List String
  | _, [] => []
  | seen, x :: xs =>
    if x ∈ seen then jsDedupAux seen xs else x :: jsDedupAux (x :: seen) xs

/-- Deduplication keeping first occurrences, as JavaScript `new Set(list)`
(iteration in insertion order). -/
def jsDedup (l : List String) : List String := jsDedupAux [] l

/-- JavaScript truthiness-based defaulting `x || y` for an optional string
field: `undefined` and the empty string are falsy. -/
def jsOr (x : Option String) (y : String) : String :=
  match x with
  | some s => if s = "" then y else s
  | none => y

namespace TrackComparison

/-- Inner loop of the Levenshtein matrix construction of
`TrackComparison.levenshteinDistance`: computes row `i` (columns `1..`) from
the previous row.  `c2` is `str2.charAt(i-1)`; the first list is the remaining
column characters of `str1`; the second list is the previous row from the
current column minus one onward; `left` is the entry just computed in the
current row (`matrix[i][j-1]`). -/
def levRowAux (c2 : Char) : List Char → List Nat → Nat → List Nat
  | [], _, _ => []
  | _ :: _, [], _ => []
  | c1 :: s1rest, d :: drest, left =>
    let up := drest.headD 0
    let cell := if c2 = c1 then d else min (d + 1) (min (left + 1) (up + 1))
    cell :: levRowAux c2 s1rest drest cell

/-- Outer loop of the matrix construction: builds row `i+1` from row `i` for
each character of `str2` (the `for i` loop of `levenshteinDistance`), returning
the final row. -/
def levRowsGo (s1 : List Char) : List Char → List Nat → Nat → List Nat
  | [], row, _ => row
  | c2 :: s2rest, row, i =>
    levRowsGo s1 s2rest ((i + 1) :: levRowAux c2 s1 row (i + 1)) (i + 1)

/-- Embedding of `TrackComparison.levenshteinDistance(str1, str2)`: the guard
returning `max` of the lengths when either string is empty (falsy), then the
dynamic program over the `(str2.length+1) × (str1.length+1)` matrix, returning
the bottom-right entry. -/
def levenshteinDistance (str1 str2 : String) : Nat :=
  if str1 = "" || str2 = "" then max str1.length str2.length
  else (levRowsGo str1.data str2.data (List.range (str1.length + 1)) 0).getLastD 0

/-- Embedding of `TrackComparison.calculateStringSimilarity(str1, str2)`:
edge cases for empty/equal strings, then the 0.6-weighted Levenshtein
similarity over the longer length plus the 0.4-weighted Jaccard similarity of
the whitespace token sets. -/
def calculateStringSimilarity (str1 str2 : String) : ℚ :=
  if str1 = "" && str2 = "" then 1
  else if str1 = "" || str2 = "" then 0
  else if str1 = str2 then 1
  else
    let longer := if str1.length > str2.length then str1 else str2
    let shorter := if str1.length > str2.length then str2 else str1
    if longer.length = 0 then 1
    else
      let editDistance := levenshteinDistance longer shorter
      let levenshteinSimilarity : ℚ :=
        ((longer.length : ℚ) - (editDistance : ℚ)) / (longer.length : ℚ)
      let tokens1 := jsDedup (jsTokens str1)
      let tokens2 := jsDedup (jsTokens str2)
      let intersection := jsDedup (tokens1.filter (fun x => tokens2.contains x))
      let union := jsDedup (tokens1 ++ tokens2)
      let jaccardSimilarity : ℚ :=
        if union.length > 0 then (intersection.length : ℚ) / (union.length : ℚ) else 0
      levenshteinSimilarity * 0.6 + jaccardSimilarity * 0.4

/-- The `artists` field of a raw track may be an array of names or a plain
string (the code branches on `Array.isArray`). -/
inductive JsArtists where
  | arr (l : List String)
  | str (s : String)
deriving DecidableEq

/-- A raw track record as consumed by the track-comparison utility: any of the
field spellings read by `normalizeSong` may be absent. -/
structure Track where
  name : Option String := none
  title : Option String := none
  artist : Option String := none
  artists : Option JsArtists := none
  album : Option String := none
deriving DecidableEq

/-- The artist string picked by `normalizeSong`:
`track.artists ? (Array.isArray(...) ? join(" ") : String(...)) : String(track.artist || "")`.
An array (even empty) is truthy; an empty string is falsy. -/
def artistsRaw (t : Track) : String :=
  match t.artists with
  | some (.arr l) => String.intercalate " " l
  | some (.str s) => if s = "" then jsOr t.artist "" else s
  | none => jsOr t.artist ""

/-- Whitespace-run collapsing, carrying whether the previous character was
whitespace: the `replace(/\s+/g, " ")` transformation. -/
def collapseWsAux : Bool → List Char → List Char
  | _, [] => []
  | prevWs, c :: cs =>
    if c.isWhitespace then
      if prevWs then collapseWsAux true cs else ' ' :: collapseWsAux true cs
    else c :: collapseWsAux false cs

/-- Replace every maximal whitespace run by a single space. -/
def collapseWs (s : String) : String := ⟨collapseWsAux false s.data⟩

/-- Embedding of `TrackComparison.cleanText`: lowercase, replace special
characters (`[^\w\s]`) with spaces, collapse whitespace, trim. -/
def cleanText (text : String) : String :=
  if text = "" then ""
  else
    let lowered := (jsToLower text).data
    let replaced := lowered.map (fun c => if !jsIsWordChar c && !c.isWhitespace then ' ' else c)
    jsTrim (collapseWs ⟨replaced⟩)

/-- Normalized view of a track as produced by `TrackComparison.normalizeSong`
(the unread `original` audit field is omitted). -/
structure NormTrack where
  title : String
  artist : String
  album : String
  searchTitle : String
  searchArtist : String
  searchAlbum : String
deriving DecidableEq

/-- Embedding of `TrackComparison.normalizeSong`. -/
def normalizeSong (track : Track) : NormTrack :=
  let title := jsTrim (jsToLower (jsOr track.name (jsOr track.title "")))
  let artist := artistsRaw track
  let album := jsTrim (jsToLower (jsOr track.album ""))
  { title := title
    artist := jsTrim (jsToLower artist)
    album := album
    searchTitle := cleanText title
    searchArtist := cleanText artist
    searchAlbum := cleanText album }

/-- Embedding of `TrackComparison.createTrackSignature`. -/
def createTrackSignature (track : Track) : String :=
  let normalized := normalizeSong track
  normalized.searchTitle ++ "|||" ++ normalized.searchArtist

/-- Case-insensitive comparison of the characters of `s` starting at `p`
against the (lowercase) keyword `kw`. -/
def lowerEqAt (s : List Char) (kw : List Char) (p : Nat) : Bool :=
  ((s.drop p).take kw.length).map Char.toLower == kw

/-- Version-token keywords stripped by `createCoreTrackSignature`, in the
pattern's alternation order. -/
def coreVersionWords : List (List Char) :=
  ["remaster".data, "remastered".data, "deluxe".data, "extended".data,
   "radio edit".data, "album version".data, "single version".data,
   "ultimate mix".data]

/-- Matcher for the word-bounded alternation
`\b(remaster|remastered|...)\b` (case-insensitive) at position `p`: requires a
word boundary before `p`, then the first keyword (in alternation order) that
matches and is followed by a word boundary; returns the end position. -/
def coreWordMatchAt (s : List Char) (p : Nat) : Option Nat :=
  if p == 0 || !jsIsWordChar (s.getD (p - 1) ' ') then
    coreVersionWords.findSome? (fun kw =>
      if lowerEqAt s kw p && !jsIsWordChar (s.getD (p + kw.length) ' ') then
        some (p + kw.length)
      else none)
  else none

/-- Scan for all (leftmost, non-overlapping) matches of a matcher, as a
`g`-flagged JavaScript regex does; `fuel` bounds the scan and is always called
with `length + 2`, which suffices since the position strictly increases. -/
def scanMatches (matchAt : Nat → Option Nat) : Nat → Nat → List (Nat × Nat)
  | 0, _ => []
  | fuel + 1, p =>
    match matchAt p with
    | some e => (p, e) :: scanMatches matchAt fuel (max e (p + 1))
    | none => scanMatches matchAt fuel (p + 1)

/-- Remove the matched spans from a string (global `replace` with `""`). -/
def removeSpans (s : List Char) (spans : List (Nat × Nat)) : List Char :=
  (s.enum.filter (fun ie => !(spans.any (fun sp => sp.1 ≤ ie.1 && ie.1 < sp.2)))).map Prod.snd

/-- Embedding of `TrackComparison.createCoreTrackSignature`: the search title
with version keywords removed (word-bounded, case-insensitive), whitespace
re-collapsed and trimmed, joined with the search artist. -/
def createCoreTrackSignature (track : Track) : String :=
  let normalized := normalizeSong track
  let t := normalized.searchTitle.data
  let scrubbed := removeSpans t (scanMatches (coreWordMatchAt t) (t.length + 2) 0)
  let coreTitle := jsTrim (collapseWs ⟨scrubbed⟩)
  coreTitle ++ "|||" ++ normalized.searchArtist

/-- Result of `calculateTrackSimilarity`. -/
structure SimResult where
  overall : ℚ
  title : ℚ
  artist : ℚ
  album : ℚ
deriving DecidableEq

/-- Embedding of `TrackComparison.calculateTrackSimilarity`: the 60/35/5
weighted blend of title/artist/album string similarities, the album component
contributing only when both search albums are non-empty (truthy). -/
def calculateTrackSimilarity (track1 track2 : Track) : SimResult :=
  let norm1 := normalizeSong track1
  let norm2 := normalizeSong track2
  let titleSimilarity := calculateStringSimilarity norm1.searchTitle norm2.searchTitle
  let artistSimilarity := calculateStringSimilarity norm1.searchArtist norm2.searchArtist
  let albumSimilarity :=
    if norm1.searchAlbum ≠ "" ∧ norm2.searchAlbum ≠ "" then
      calculateStringSimilarity norm1.searchAlbum norm2.searchAlbum
    else 0
  { overall := titleSimilarity * 0.60 + artistSimilarity * 0.35 + albumSimilarity * 0.05
    title := titleSimilarity
    artist := artistSimilarity
    album := albumSimilarity }

/-- Verdict returned by `isTrackAlreadyInPlaylist`. -/
structure Verdict where
  isDuplicate : Bool
  method : Option String
  confidence : ℚ
  existingTrack : Option Track
deriving DecidableEq

/-- The `existingTracks` argument: `null`/`undefined`, some non-array value,
or an actual array whose entries may themselves be `null`. -/
inductive ExistingTracksArg where
  | nullish
  | nonArray
  | arr (l : List (Option Track))
deriving DecidableEq

/-- The non-duplicate verdict. -/
def noDuplicate : Verdict :=
  { isDuplicate := false, method := none, confidence := 0, existingTrack := none }

/-- The `for ... of existingTracks` loop of `isTrackAlreadyInPlaylist`:
exact signature, core signature, high similarity, then medium similarity with
exact artist; first qualifying existing track wins. -/
def isDupLoop (newTrack : Track) (newSignature newCoreSignature : String) :
    List (Option Track) → Verdict
  | [] => noDuplicate
  | none :: rest => isDupLoop newTrack newSignature newCoreSignature rest
  | some existingTrack :: rest =>
    let existingSignature := createTrackSignature existingTrack
    let existingCoreSignature := createCoreTrackSignature existingTrack
    if newSignature = existingSignature ∧ newSignature.length > 6 then
      { isDuplicate := true, method := some "exact_signature", confidence := 1,
        existingTrack := some existingTrack }
    else if newCoreSignature = existingCoreSignature ∧ newCoreSignature.length > 6 then
      { isDuplicate := true, method := some "core_signature", confidence := 0.95,
        existingTrack := some existingTrack }
    else
      let similarity := calculateTrackSimilarity newTrack existingTrack
      if similarity.overall > 0.90 then
        { isDuplicate := true, method := some "high_similarity",
          confidence := similarity.overall, existingTrack := some existingTrack }
      else if similarity.overall > 0.75 ∧ similarity.artist > 0.95 then
        { isDuplicate := true, method := some "medium_similarity_exact_artist",
          confidence := similarity.overall, existingTrack := some existingTrack }
      else isDupLoop newTrack newSignature newCoreSignature rest

/-- Embedding of `TrackComparison.isTrackAlreadyInPlaylist`: the guard on a
falsy candidate or a falsy/non-array collection, then the tiered loop. -/
def isTrackAlreadyInPlaylist (newTrack : Option Track)
    (existingTracks : ExistingTracksArg) : Verdict :=
  match newTrack, existingTracks with
  | none, _ => noDuplicate
  | some _, .nullish => noDuplicate
  | some _, .nonArray => noDuplicate
  | some t, .arr l => isDupLoop t (createTrackSignature t) (createCoreTrackSignature t) l

/-- The candidate track of the remaster duplicate-detection scenario. -/
def thrillerRemasterCandidate : Track :=
  { title := some "Thriller (2003 Remaster)", artist := some "Michael Jackson" }

/-- The existing track of the remaster duplicate-detection scenario. -/
def thrillerExisting : Track :=
  { name := some "Thriller", artists := some (JsArtists.arr ["Michael Jackson"]) }

/-- A candidate whose title and artist consist only of punctuation, so both
search strings normalize to empty. -/
def emptySearchCandidate : Track := { title := some "!!!", artist := some "???" }

/-- An existing track whose title and artist normalize to empty search
strings. -/
def emptySearchExisting : Track := { name := some "...", artist := some "###" }

end TrackComparison

namespace SpotifySearch

/-- Collapse every maximal run of characters satisfying `p` into a single
space, the `replace(/[...]+/g, " ")` transformation. -/
def collapseRunsAux (p : Char → Bool) : Bool → List Char → List Char
  | _, [] => []
  | prevHit, c :: cs =>
    if p c then
      if prevHit then collapseRunsAux p true cs else ' ' :: collapseRunsAux p true cs
    else c :: collapseRunsAux p false cs

/-- Embedding of the search service's `normalize` helper: lowercase, replace
`[\W_]+` runs (anything non-alphanumeric) with a space, collapse whitespace,
trim. -/
def normalize (str : String) : String :=
  let lowered := (jsToLower str).data
  let depunct := collapseRunsAux (fun c => !c.isAlphanum) false lowered
  jsTrim ⟨TrackComparison.collapseWsAux false depunct⟩

/-- Remove all whitespace, the `replace(/\s+/g, "")` preprocessing of
`compareTwoStrings`. -/
def stripWs (s : String) : String := ⟨s.data.filter (fun c => !c.isWhitespace)⟩

/-- Multiset intersection size of two bigram lists, embedding the counting-map
loop of the library's `compareTwoStrings` (each bigram of the second string
consumes one remaining occurrence from the first). -/
def diceInterAux : List (Char × Char) → List (Char × Char) → Nat
  | _, [] => 0
  | remaining, bg :: rest =>
    if bg ∈ remaining then 1 + diceInterAux (remaining.erase bg) rest
    else diceInterAux remaining rest

/-- Embedding of `compareTwoStrings` from the `string-similarity` npm package
used by `scoreAndSelectBestMatch` (the repository's dependency, not code of
the repository): strip whitespace, 1 for identical inputs, 0 when either has
fewer than two characters, otherwise the Sørensen–Dice coefficient
`2·|bigram intersection| / (|first| + |second| − 2)`. -/
def compareTwoStrings (first second : String) : ℚ :=
  let f := stripWs first
  let s := stripWs second
  if f = s then 1
  else if f.length < 2 || s.length < 2 then 0
  else
    let firstBigrams := f.data.zip f.data.tail
    let secondBigrams := s.data.zip s.data.tail
    let intersectionSize := diceInterAux firstBigrams secondBigrams
    (2 * (intersectionSize : ℚ)) / ((f.length : ℚ) + (s.length : ℚ) - 2)

/-- A Spotify search result candidate as read by the scorer: its `name` and
the names of its `artists` (URI/id/album fields are never read here and are
omitted). -/
structure Candidate where
  name : String
  artists : List String
deriving DecidableEq

/-- The song object passed to the search service. -/
structure SearchSong where
  title : String
  artist : String
  searchTitle : String := ""
  searchArtist : String := ""
deriving DecidableEq

/-- The score assigned to one candidate inside `scoreAndSelectBestMatch`:
70% title and 30% artist Dice similarity of the normalized strings, candidate
artists normalized individually and joined with spaces. -/
def scoreCandidate (song : SearchSong) (candidate : Candidate) : ℚ :=
  let normTitle := normalize song.title
  let normArtist := normalize song.artist
  let candTitle := normalize candidate.name
  let candArtists := String.intercalate " " (candidate.artists.map normalize)
  0.7 * compareTwoStrings normTitle candTitle + 0.3 * compareTwoStrings normArtist candArtists

/-- The running best of the candidate scoring loop (`match` is a Lean keyword,
so the JavaScript `match` field is named `matched`). -/
structure BestMatch where
  matched : Option Candidate
  confidence : ℚ
deriving DecidableEq

/-- Embedding of `scoreAndSelectBestMatch`: fold over the candidates keeping
the strictly best score, starting from `{match: null, confidence: 0}`. -/
def scoreAndSelectBestMatch (song : SearchSong) (candidates : List Candidate) : BestMatch :=
  candidates.foldl
    (fun best candidate =>
      let confidence := scoreCandidate song candidate
      if best.confidence < confidence then
        { matched := some candidate, confidence := confidence }
      else best)
    { matched := none, confidence := 0 }

/-- One collaborator response to a search call: a successful candidate list, a
rate-limit error (status 429) with its optional `retry-after` header in
seconds, or any other error. -/
inductive SearchOutcome where
  | success (items : List Candidate)
  | rateLimited (retryAfter : Option Nat)
  | failure
deriving DecidableEq

/-- What one strategy's `searchWithStrategy` run did: its returned value
(`none` models returning `null`), the delays slept (milliseconds), and the
number of search calls issued. -/
structure StrategyTrace where
  result : Option BestMatch
  delays : List Nat
  calls : Nat
deriving DecidableEq

/-- The retry ceiling `this.maxRetries`. -/
def maxRetries : Nat := 3

/-- The backoff base `this.baseDelay` in milliseconds. -/
def baseDelay : Nat := 1000

/-- The `while (attempt <= this.maxRetries)` loop of `searchWithStrategy`,
driven by the stream of collaborator outcomes indexed by attempt number.
`gas` equals `maxRetries + 1 - attempt`, so running out of gas is exactly the
loop condition failing.  A successful response scores and returns (or returns
`null` on an empty list), a 429 sleeps
`max(baseDelay * 2^attempt, retryAfter * 1000)` and retries, and any other
error breaks out immediately. -/
def searchFrom (song : SearchSong) (responses : Nat → SearchOutcome) :
    Nat → Nat → StrategyTrace
  | 0, _ => { result := none, delays := [], calls := 0 }
  | gas + 1, attempt =>
    match responses attempt with
    | .success items =>
      if items.length > 0 then
        { result := some (scoreAndSelectBestMatch song items), delays := [], calls := 1 }
      else { result := none, delays := [], calls := 1 }
    | .rateLimited retryAfter =>
      let delay := max (baseDelay * 2 ^ attempt) ((retryAfter.getD 1) * 1000)
      let rest := searchFrom song responses gas (attempt + 1)
      { result := rest.result, delays := delay :: rest.delays, calls := rest.calls + 1 }
    | .failure => { result := none, delays := [], calls := 1 }

/-- Embedding of `searchWithStrategy`: the attempt loop started at attempt 0
with the full gas budget. -/
def searchWithStrategy (song : SearchSong) (responses : Nat → SearchOutcome) : StrategyTrace :=
  searchFrom song responses (maxRetries + 1) 0

/-- Embedding of `searchTrackSmart`'s strategy loop: each strategy is tried in
order against its own outcome stream; a strategy's result is accepted when it
produced a match with confidence above 0.5, otherwise the next strategy is
tried; `none` models the final no-match return. -/
def searchTrackSmart (song : SearchSong) : List (Nat → SearchOutcome) → Option BestMatch
  | [] => none
  | responses :: rest =>
    match (searchWithStrategy song responses).result with
    | some best =>
      if best.matched.isSome ∧ best.confidence > 0.5 then some best
      else searchTrackSmart song rest
    | none => searchTrackSmart song rest

/-- The song of the Dice-versus-engine scoring scenario. -/
def diceSong : SearchSong := { title := "abc", artist := "x" }

/-- The candidate of the Dice-versus-engine scoring scenario. -/
def diceCandidate : Candidate := { name := "acb", artists := ["x"] }

end SpotifySearch

namespace SearchCache

/-- A track as read by the cache key generator: any of the alternative field
spellings (`title`/`name`/`Name`, `artist`/`Artist`, `album`/`Album`) may be
absent. -/
structure CacheTrack where
  title : Option String := none
  name : Option String := none
  Name : Option String := none
  artist : Option String := none
  Artist : Option String := none
  album : Option String := none
  Album : Option String := none
deriving DecidableEq

/-- The normalized title of `generateTrackKey`:
`(track.title || track.name || track.Name || "").toLowerCase().trim()`. -/
def normalizedTitle (track : CacheTrack) : String :=
  jsTrim (jsToLower (jsOr track.title (jsOr track.name (jsOr track.Name ""))))

/-- The normalized artist: `(track.artist || track.Artist || "").toLowerCase().trim()`. -/
def normalizedArtist (track : CacheTrack) : String :=
  jsTrim (jsToLower (jsOr track.artist (jsOr track.Artist "")))

/-- The normalized album: `(track.album || track.Album || "").toLowerCase().trim()`. -/
def normalizedAlbum (track : CacheTrack) : String :=
  jsTrim (jsToLower (jsOr track.album (jsOr track.Album "")))

/-- Embedding of `generateTrackKey`: the MD5 hex digest of the pipe-joined
normalized fields.  The digest itself lives in the external `crypto` library;
it is modelled as an arbitrary function `md5hex` of the hash input, which is
all that the fingerprint's determinism and invariance properties depend on
(no property here requires collision behaviour). -/
def generateTrackKey (md5hex : String → String) (track : CacheTrack) : String :=
  md5hex (normalizedTitle track ++ "|" ++ normalizedArtist track ++ "|" ++ normalizedAlbum track)

/-- First track of the fingerprint-invariance scenario. -/
def fingerTrackA : CacheTrack := { title := some "  Hello ", artist := some "WORLD" }

/-- Second track of the fingerprint-invariance scenario: same fields up to
case, surrounding whitespace and field spelling. -/
def fingerTrackB : CacheTrack :=
  { title := some "hello", Artist := some "world  ", album := some "" }

end SearchCache

namespace SongNormalizer

/-- Characters the JavaScript `.` metacharacter does not match (no `s` flag):
line terminators. -/
def isRegexNewline (c : Char) : Bool := c = '\n' || c = '\r'

/-- The version/qualifier keywords of `versionPatterns`, in alternation
order. -/
def versionWords : List (List Char) :=
  ["remix".data, "mix".data, "edit".data, "version".data, "remaster".data,
   "live".data, "acoustic".data, "instrumental".data, "radio".data,
   "clean".data, "explicit".data, "deluxe".data]

/-- Length of the whitespace run starting at position `p`. -/
def wsRunAt (s : List Char) (p : Nat) : Nat :=
  ((s.drop p).takeWhile Char.isWhitespace).length

/-- First position `r ≥ q` holding `close`, with every character in between
matchable by `.` (no newline); `none` when a newline or the end intervenes. -/
def findCloseFrom (s : List Char) (close : Char) (q : Nat) : Option Nat :=
  match (s.drop q).findIdx? (fun c => c = close || isRegexNewline c) with
  | some i => if s.getD (q + i) ' ' = close then some (q + i) else none
  | none => none

/-- First position `r ≥ q` holding `c` (no newline restriction, for negated
character classes such as `[^)]`). -/
def findCharFrom (s : List Char) (c : Char) (q : Nat) : Option Nat :=
  match (s.drop q).findIdx? (fun x => x = c) with
  | some i => some (q + i)
  | none => none

/-- Try the version keywords in alternation order at position `q`: the first
keyword matching case-insensitively whose trailing lazy `.*?` reaches `close`
wins; returns the close position. -/
def tryVersionKwsAt (s : List Char) (close : Char) (q : Nat) : Option Nat :=
  versionWords.findSome? (fun kw =>
    if TrackComparison.lowerEqAt s kw q then findCloseFrom s close (q + kw.length)
    else none)

/-- The lazy scan of `\((.*?(?:remix|...|deluxe).*?)\)`'s body: positions for
the leading `.*?` are tried shortest-first; at each the keyword alternation
and trailing lazy part are attempted; the scan stops at a newline or the end
of the string.  Fuel bounds the scan and `length + 2` always suffices. -/
def delimScan (s : List Char) (close : Char) : Nat → Nat → Option Nat
  | 0, _ => none
  | fuel + 1, q =>
    match tryVersionKwsAt s close q with
    | some r => some (r + 1)
    | none =>
      match s[q]? with
      | none => none
      | some c => if isRegexNewline c then none else delimScan s close fuel (q + 1)

/-- Matcher for the parenthesized/bracketed version patterns at position `p`:
an opening delimiter, then the lazy keyword body, then the closing delimiter;
returns the end of the full match. -/
def delimVersionMatchAt (s : List Char) (opn close : Char) (p : Nat) : Option Nat :=
  if s[p]? = some opn then delimScan s close (s.length + 2) (p + 1) else none

/-- Does the list contain a version keyword (case-insensitively) at any
position? -/
def containsVersionWordCI (l : List Char) : Bool :=
  (List.range (l.length + 1)).any (fun q =>
    versionWords.any (fun kw => TrackComparison.lowerEqAt l kw q))

/-- Matcher for the trailing-dash version pattern
`\s+-\s+(.*?(?:remix|...).*?)$` at position `p`: a whitespace run, a dash,
another whitespace run, and a newline-free tail containing a keyword; the
match always extends to the end of the string. -/
def dashVersionMatchAt (s : List Char) (p : Nat) : Option Nat :=
  let r := wsRunAt s p
  if r ≥ 1 && s.getD (p + r) ' ' = '-' then
    let r2 := wsRunAt s (p + r + 1)
    if r2 ≥ 1 then
      let tail := s.drop (p + r + 1 + r2)
      if containsVersionWordCI tail && tail.all (fun c => !isRegexNewline c) then
        some s.length
      else none
    else none
  else none

/-- The `g`-flagged match lists of the three `versionPatterns` over a title,
in pattern order. -/
def versionPatternMatches (title : List Char) : List (List (Nat × Nat)) :=
  [TrackComparison.scanMatches (delimVersionMatchAt title '(' ')') (title.length + 2) 0,
   TrackComparison.scanMatches (delimVersionMatchAt title '[' ']') (title.length + 2) 0,
   TrackComparison.scanMatches (dashVersionMatchAt title) (title.length + 2) 0]

/-- The pattern loop of `extractVersionInfo`, given each pattern's `g`-flagged
match list.  Because the patterns carry the `g` flag, `text.match(pattern)`
returns the list of full-match strings without capture groups, so `match[1]`
is the second full match: with exactly one match it is `undefined` and the
`.trim()` call throws (modelled as `Except.error`); with two or more, the
second full match becomes the version and all matches are stripped from the
working title. -/
def extractVersionLoop (text : List Char) :
    List (List (Nat × Nat)) → Except Unit (Option (String × String))
  | [] => .ok none
  | ms :: rest =>
    match ms with
    | [] => extractVersionLoop text rest
    | [_] => .error ()
    | _ :: m1 :: _ =>
      .ok (some (jsTrim ⟨(text.take m1.2).drop m1.1⟩,
        jsTrim ⟨TrackComparison.removeSpans text ms⟩))

/-- Embedding of `extractVersionInfo`. -/
def extractVersionInfo (text : String) : Except Unit (Option (String × String)) :=
  extractVersionLoop text.data (versionPatternMatches text.data)

/-- Matcher for the parenthesized feature patterns
`\(feat\.?\s+([^)]+)\)` (and `featuring`/`ft`/`with` variants) at `p`:
returns the end of the full match and the captured artist list text.  The
greedy `\s+` backtracks by at most the amount needed to make the capture
non-empty. -/
def parenFeatMatchAt (s : List Char) (kw : List Char) (optDot : Bool) (p : Nat) :
    Option (Nat × String) :=
  if s[p]? = some '(' && TrackComparison.lowerEqAt s kw (p + 1) then
    let q0 := p + 1 + kw.length
    let q1 := if optDot && s.getD q0 ' ' = '.' then q0 + 1 else q0
    let r := wsRunAt s q1
    if r ≥ 1 then
      match findCharFrom s ')' (q1 + r) with
      | none => none
      | some closeIdx =>
        let w := min r (closeIdx - q1 - 1)
        if w ≥ 1 then some (closeIdx + 1, ⟨(s.take closeIdx).drop (q1 + w)⟩) else none
    else none
  else none

/-- Matcher for the bare feature patterns `feat\.?\s+([^,&\(]+)` (and
variants) at `p`: the capture runs greedily to the first `,`/`&`/`(` or the
end of the string. -/
def bareFeatMatchAt (s : List Char) (kw : List Char) (optDot : Bool) (p : Nat) :
    Option (Nat × String) :=
  if TrackComparison.lowerEqAt s kw p then
    let q0 := p + kw.length
    let q1 := if optDot && s.getD q0 ' ' = '.' then q0 + 1 else q0
    let r := wsRunAt s q1
    if r ≥ 1 then
      let stopIdx :=
        match (s.drop (q1 + r)).findIdx? (fun c => c = ',' || c = '&' || c = '(') with
        | some i => q1 + r + i
        | none => s.length
      let w := min r (stopIdx - q1 - 1)
      if w ≥ 1 then some (stopIdx, ⟨(s.take stopIdx).drop (q1 + w)⟩) else none
    else none
  else none

/-- Scan for all matches of a capturing matcher (`matchAll` semantics):
start, end and capture of each leftmost non-overlapping match. -/
def scanCapMatches (matchAt : Nat → Option (Nat × String)) :
    Nat → Nat → List (Nat × Nat × String)
  | 0, _ => []
  | fuel + 1, p =>
    match matchAt p with
    | some (e, cap) => (p, e, cap) :: scanCapMatches matchAt fuel (max e (p + 1))
    | none => scanCapMatches matchAt fuel (p + 1)

/-- The `matchAll` lists of the eight `featurePatterns` over a text, in
pattern order. -/
def featurePatternsAll (text : List Char) : List (List (Nat × Nat × String)) :=
  [scanCapMatches (parenFeatMatchAt text "feat".data true) (text.length + 2) 0,
   scanCapMatches (parenFeatMatchAt text "featuring".data false) (text.length + 2) 0,
   scanCapMatches (parenFeatMatchAt text "ft".data true) (text.length + 2) 0,
   scanCapMatches (parenFeatMatchAt text "with".data false) (text.length + 2) 0,
   scanCapMatches (bareFeatMatchAt text "feat".data true) (text.length + 2) 0,
   scanCapMatches (bareFeatMatchAt text "featuring".data false) (text.length + 2) 0,
   scanCapMatches (bareFeatMatchAt text "ft".data true) (text.length + 2) 0,
   scanCapMatches (bareFeatMatchAt text "with".data false) (text.length + 2) 0]

/-- Remove the first occurrence of `pat` from `s` (JavaScript
`String.replace` with a string pattern). -/
def replaceFirst (s pat : List Char) : List Char :=
  match (List.range (s.length + 1)).find? (fun i => decide ((s.drop i).take pat.length = pat)) with
  | some i => s.take i ++ s.drop (i + pat.length)
  | none => s

/-- Split a captured artist list on `,`/`&`, trim, and drop empties. -/
def splitFeatureNames (cap : String) : List String :=
  ((splitChars (fun c => c = ',' || c = '&') cap).map jsTrim).filter (fun a => a ≠ "")

/-- The nested loop of `extractFeatures`: for each pattern, every match over
the ORIGINAL text contributes its split capture to the feature list and has
its full-match text removed (first occurrence) from the working text, which
is trimmed after every removal. -/
def extractFeaturesLoop (orig : List Char) :
    List (List (Nat × Nat × String)) → List String × List Char → List String × List Char
  | [], acc => acc
  | ms :: rest, acc =>
    let acc2 := ms.foldl
      (fun (fc : List String × List Char) m =>
        if m.2.2 ≠ "" then
          (fc.1 ++ splitFeatureNames m.2.2,
           jsTrimList (replaceFirst fc.2 ((orig.take m.2.1).drop m.1)))
        else fc) acc
    extractFeaturesLoop orig rest acc2

/-- Embedding of `extractFeatures`. -/
def extractFeatures (text : String) : List String × String :=
  let r := extractFeaturesLoop text.data (featurePatternsAll text.data) ([], text.data)
  (r.1, ⟨r.2⟩)

/-- Typographic character normalization of the normalizer's `cleanText`:
curly quotes to ASCII quotes, curly apostrophes to `'`, ellipsis to `...`,
en/em dashes to `-`. -/
def jsPunctNormalize (c : Char) : List Char :=
  if c = '“' || c = '”' then ['"']
  else if c = '‘' || c = '’' then ['\'']
  else if c = '…' then ['.', '.', '.']
  else if c = '–' || c = '—' then ['-']
  else [c]

/-- Embedding of the normalizer's `cleanText`: trim, collapse whitespace,
normalize typographic characters, strip leading/trailing non-word characters
(`^\W+|\W+$`), trim.  A missing or non-string field yields `""`. -/
def cleanText (text : Option String) : String :=
  match text with
  | none => ""
  | some t =>
    let s1 := jsTrimList t.data
    let s2 := TrackComparison.collapseWsAux false s1
    let s3 := s2.flatMap jsPunctNormalize
    let s4 := ((s3.dropWhile (fun c => !jsIsWordChar c)).reverse.dropWhile
      (fun c => !jsIsWordChar c)).reverse
    ⟨jsTrimList s4⟩

/-- The normalizer's stop-word set. -/
def stopWords : List String :=
  ["the", "a", "an", "and", "or", "but", "in", "on", "at", "to", "for", "of", "with", "by"]

/-- JavaScript `word.charAt(0).toUpperCase() + word.slice(1)` (the empty word
stays empty). -/
def capitalizeWord (w : String) : String :=
  match w.data with
  | [] => ""
  | c :: cs => ⟨c.toUpper :: cs⟩

/-- Per-word transformation of `toTitleCase`: short stop-words stay
lowercase, every other word is capitalized. -/
def toTitleCaseWord (w : String) : String :=
  if w.length ≤ 3 && stopWords.contains (jsToLower w) then jsToLower w else capitalizeWord w

/-- The `replace(/^[a-z]/, ...)` pass: capitalize a lowercase first
character. -/
def upFirst (s : String) : String :=
  match s.data with
  | [] => ""
  | c :: cs => if 'a' ≤ c && c ≤ 'z' then ⟨c.toUpper :: cs⟩ else ⟨c :: cs⟩

/-- The `replace(/\s+[a-z]$/g, toUpperCase)` pass: capitalize a final
lowercase single-letter word preceded by whitespace. -/
def upLastAfterWs (s : String) : String :=
  match s.data.reverse with
  | c :: d :: rest =>
    if ('a' ≤ c && c ≤ 'z') && d.isWhitespace then ⟨(c.toUpper :: d :: rest).reverse⟩ else s
  | _ => s

/-- Embedding of `toTitleCase`: lowercase, split on single spaces, transform
each word, join, then the first/last-word fixups. -/
def toTitleCase (text : String) : String :=
  if text = "" then ""
  else
    upLastAfterWs (upFirst (String.intercalate " "
      ((splitChars (fun c => c = ' ') (jsToLower text)).map toTitleCaseWord)))

/-- Case-insensitive equality of a character list with a lowercase keyword. -/
def lowerEq (l : List Char) (kw : List Char) : Bool :=
  l.map Char.toLower == kw

/-- Does `hay` contain the lowercase `needle` case-insensitively
(`/needle/i.test(hay)`)? -/
def containsCI (hay : String) (needle : List Char) : Bool :=
  (List.range (hay.length + 1)).any (fun q => TrackComparison.lowerEqAt hay.data needle q)

/-- Does `hay` end with the lowercase `needle` case-insensitively
(`/needle$/i.test(hay)`)? -/
def endsWithCI (hay : String) (needle : List Char) : Bool :=
  lowerEq (hay.data.drop (hay.length - needle.length)) needle && hay.length ≥ needle.length

/-- Is the tail exactly one of the articles `the|a|an` (case-insensitive)? -/
def isArticleCI (l : List Char) : Bool :=
  lowerEq l "the".data || lowerEq l "a".data || lowerEq l "an".data

/-- Embedding of `normalizeArticles`: rewrite `"Name, The"` to `"The Name"`
via `^(.+),\s+(the|a|an)$/i`; the greedy `(.+)` selects the last comma whose
tail is whitespace followed by an article. -/
def normalizeArticles (artist : String) : String :=
  let s := artist.data
  let valid := (List.range s.length).filter (fun c =>
    decide (1 ≤ c) && s.getD c ' ' == ',' && decide (1 ≤ wsRunAt s (c + 1)) &&
      isArticleCI (s.drop (c + 1 + wsRunAt s (c + 1))))
  match valid.getLast? with
  | some c =>
    let r := wsRunAt s (c + 1)
    jsTrim ⟨s.drop (c + 1 + r) ++ ' ' :: s.take c⟩
  | none => artist

/-- The separator token alternation `(&|and|\+|,)` (case-insensitive), tried
in order at position `q`; returns the token as written. -/
def sepTokenAt (s : List Char) (q : Nat) : Option (List Char) :=
  if s.getD q ' ' = '&' then some ['&']
  else if TrackComparison.lowerEqAt s "and".data q then some ((s.drop q).take 3)
  else if s.getD q ' ' = '+' then some ['+']
  else if s.getD q ' ' = ',' then some [',']
  else none

/-- Matcher for the artist separator `\s+(&|and|\+|,)\s+` at position `p`:
returns the end of the match and the captured token. -/
def sepMatchAt (s : List Char) (p : Nat) : Option (Nat × List Char) :=
  let r := wsRunAt s p
  if r ≥ 1 then
    match sepTokenAt s (p + r) with
    | some tok =>
      let r2 := wsRunAt s (p + r + tok.length)
      if r2 ≥ 1 then some (p + r + tok.length + r2, tok) else none
    | none => none
  else none

/-- The leftmost separator match starting at or after `p`. -/
def nextSepFrom (s : List Char) (p : Nat) : Option (Nat × Nat × List Char) :=
  (List.range' p (s.length - p)).findSome? (fun q =>
    (sepMatchAt s q).map (fun r => (q, r.1, r.2)))

/-- JavaScript `split` on the capturing separator regex: pieces interleaved
with the captured tokens.  Fuel bounds the scan; `length + 1` suffices since
every separator consumes at least three characters. -/
def splitSepsGo (s : List Char) : Nat → Nat → List String
  | 0, start => [⟨s.drop start⟩]
  | fuel + 1, start =>
    match nextSepFrom s start with
    | some (q, e, tok) =>
      String.mk ((s.take q).drop start) :: String.mk tok :: splitSepsGo s fuel e
    | none => [⟨s.drop start⟩]

/-- Does the separator regex match anywhere (`separators.test`, no `g` flag,
stateless)? -/
def separatorsTest (s : String) : Bool :=
  (List.range s.length).any (fun q => (sepMatchAt s.data q).isSome)

/-- Embedding of `splitMultipleArtists`: when a separator occurs, split
(captured tokens included, as JavaScript `split` with a capture group does),
drop parts that themselves contain a separator match, and take the first part
as the main artist and the rest — including the bare separator tokens, which
never contain a padded separator match — as additional artists.  The split
list is never empty, so `parts[0]` is modelled by `headD ""`. -/
def splitMultipleArtists (artist : String) : String × List String :=
  if separatorsTest artist then
    let parts := (splitSepsGo artist.data (artist.length + 1) 0).filter
      (fun part => !separatorsTest part)
    (jsTrim (parts.headD ""), (parts.drop 1).map jsTrim)
  else (artist, [])

/-- The album suffix qualifiers stripped by `processAlbum`, in alternation
order. -/
def albumSuffixPhrases : List String :=
  ["Bonus Track Version", "Deluxe Edition", "Expanded Edition", "Remastered",
   "Special Edition"]

/-- Strip a trailing `\s*(Phrase)$` (or bracketed) album qualifier,
case-insensitively, removing the greedy whitespace before the delimiter. -/
def stripAlbumSuffixWith (opn cls : Char) (album : List Char) : List Char :=
  match albumSuffixPhrases.findSome? (fun ph =>
    let phl := (jsToLower ph).data
    if album.length ≥ phl.length + 2 then
      let c := album.length - (phl.length + 2)
      if album.getD c ' ' = opn && TrackComparison.lowerEqAt album phl (c + 1) &&
          album.getD (album.length - 1) ' ' = cls then
        some c
      else none
    else none) with
  | some c => ((album.take c).reverse.dropWhile Char.isWhitespace).reverse
  | none => album

/-- Embedding of `createSearchString`: lowercase, punctuation to spaces,
collapse, trim, drop stop-words. -/
def createSearchString (text : String) : String :=
  if text = "" then ""
  else
    let lowered := (jsToLower text).data
    let replaced := lowered.map (fun c => if !jsIsWordChar c && !c.isWhitespace then ' ' else c)
    let collapsed := jsTrimList (TrackComparison.collapseWsAux false replaced)
    String.intercalate " "
      ((splitChars (fun c => c = ' ') ⟨collapsed⟩).filter (fun w => !stopWords.contains w))

/-- Embedding of `validateYear` (the numeric field is modelled as already
parsed; `0` is falsy like a failed `parseInt`). -/
def validateYear (currentYear : Int) (year : Option Int) : Option Int :=
  match year with
  | none => none
  | some y => if y = 0 then none else if 1900 ≤ y ∧ y ≤ currentYear then some y else none

/-- Embedding of `validateDuration`. -/
def validateDuration (duration : Option Int) : Option Int :=
  match duration with
  | none => none
  | some d => if d = 0 then none else if 5 ≤ d ∧ d ≤ 1200 then some d else none

/-- Embedding of `validatePlayCount`. -/
def validatePlayCount (playCount : Option Int) : Option Int :=
  match playCount with
  | none => none
  | some p => if p = 0 then none else if 0 ≤ p ∧ p ≤ 100000 then some p else none

/-- Matcher for `^track\s+\d+$/i`. -/
def patTrackNum (s : String) : Bool :=
  let l := s.data
  TrackComparison.lowerEqAt l "track".data 0 &&
    decide (1 ≤ wsRunAt l 5) &&
    (let rest := l.drop (5 + wsRunAt l 5)
     !rest.isEmpty && rest.all Char.isDigit)

/-- Matcher for `^unknown\s+(artist|album|title)$/i`. -/
def patUnknown (s : String) : Bool :=
  let l := s.data
  TrackComparison.lowerEqAt l "unknown".data 0 &&
    decide (1 ≤ wsRunAt l 7) &&
    (let rest := l.drop (7 + wsRunAt l 7)
     lowerEq rest "artist".data || lowerEq rest "album".data || lowerEq rest "title".data)

/-- Matcher for `^\d+$` (no flags, stateless). -/
def patDigitsOnly (s : String) : Bool :=
  !s.data.isEmpty && s.data.all Char.isDigit

/-- Matcher for `^[^a-zA-Z]*$` (no flags, stateless): no ASCII letters at
all; matches the empty string. -/
def patNoLetters (s : String) : Bool :=
  s.data.all (fun c => !c.isAlpha)

/-- Matcher for `^apple\s+music/i`, returning the matched prefix length (the
new `lastIndex`). -/
def patAppleMusic (s : String) : Option Nat :=
  let l := s.data
  if TrackComparison.lowerEqAt l "apple".data 0 &&
      decide (1 ≤ wsRunAt l 5) &&
      TrackComparison.lowerEqAt l "music".data (5 + wsRunAt l 5) then
    some (5 + wsRunAt l 5 + 5)
  else none

/-- The mutable `lastIndex` values of the three `/g`-flagged
`invalidPatterns` (patterns 3 and 4 carry no flags and are stateless). -/
structure RegexState where
  li1 : Nat := 0
  li2 : Nat := 0
  li5 : Nat := 0
deriving DecidableEq

/-- One `regex.test(s)` call on a `g`-flagged `^`-anchored pattern: matching
starts at `lastIndex`, so with `lastIndex ≠ 0` the anchored pattern cannot
match and `lastIndex` resets to 0; with `lastIndex = 0` a successful match
advances `lastIndex` to the match end. -/
def gTest (matchEnd : String → Option Nat) (li : Nat) (s : String) : Bool × Nat :=
  if li = 0 then
    match matchEnd s with
    | some e => (true, e)
    | none => (false, 0)
  else (false, 0)

/-- The short-circuiting `invalidPatterns.some(p => p.test(s))`, threading
the `lastIndex` state of the three stateful patterns. -/
def someInvalidTest (st : RegexState) (s : String) : Bool × RegexState :=
  let t1 := gTest (fun s => if patTrackNum s then some s.length else none) st.li1 s
  if t1.1 then (true, { st with li1 := t1.2 })
  else
    let t2 := gTest (fun s => if patUnknown s then some s.length else none) st.li2 s
    if t2.1 then (true, { li1 := t1.2, li2 := t2.2, li5 := st.li5 })
    else if patDigitsOnly s then (true, { li1 := t1.2, li2 := t2.2, li5 := st.li5 })
    else if patNoLetters s then (true, { li1 := t1.2, li2 := t2.2, li5 := st.li5 })
    else
      let t5 := gTest patAppleMusic st.li5 s
      (t5.1, { li1 := t1.2, li2 := t2.2, li5 := t5.2 })

/-- The quality record produced by `validateAndScore`. -/
structure Quality where
  score : Int
  issues : List String
  confidence : String
deriving DecidableEq

/-- A raw song record as consumed by the normalizer (numeric fields already
parsed; `0` behaves as falsy like a failed `parseInt`). -/
structure Song where
  title : Option String := none
  artist : Option String := none
  album : Option String := none
  genre : Option String := none
  year : Option Int := none
  duration : Option Int := none
  playCount : Option Int := none
deriving DecidableEq

/-- The normalized track record (the `processed` metadata is carried as the
two string fields). -/
structure Normalized where
  original : Song
  title : String
  artist : String
  album : String
  genre : String
  year : Option Int
  duration : Option Int
  playCount : Option Int
  features : List String
  version : Option String
  isLive : Bool
  isRemix : Bool
  isInstrumental : Bool
  isExplicit : Bool
  searchTitle : String
  searchArtist : String
  searchAlbum : String
  quality : Quality
  processedTimestamp : String
  processedProcessor : String
deriving DecidableEq

/-- The ambient impure inputs of `normalizeSong`: `new Date().toISOString()`
and `new Date().getFullYear()`, passed explicitly. -/
structure Env where
  now : String
  currentYear : Int

/-- Embedding of `validateAndScore`: the rule set starting at 100, the
stateful suspicious-pattern tests on title and artist (each guarded by the
field being truthy), length checks, metadata bonuses, clamping, and the
confidence tier; returns the fresh `quality` record (the code overwrites
`normalized.quality` wholesale) and the updated regex state. -/
def validateAndScore (st : RegexState) (n : Normalized) : Quality × RegexState :=
  let s0 : Int := 100
  let a1 := if n.title = "" then (["missing_title"], s0 - 50) else ([], s0)
  let a2 := if n.artist = "" then (a1.1 ++ ["missing_artist"], a1.2 - 50) else a1
  let a3 :=
    if n.title ≠ "" then
      let t := someInvalidTest st n.title
      if t.1 then (t.2, a2.1 ++ ["suspicious_title"], a2.2 - 20) else (t.2, a2.1, a2.2)
    else (st, a2.1, a2.2)
  let a4 :=
    if n.artist ≠ "" then
      let t := someInvalidTest a3.1 n.artist
      if t.1 then (t.2, a3.2.1 ++ ["suspicious_artist"], a3.2.2 - 20)
      else (t.2, a3.2.1, a3.2.2)
    else a3
  let a5 :=
    if n.title ≠ "" ∧ n.title.length < 2 then (a4.2.1 ++ ["title_too_short"], a4.2.2 - 15)
    else a4.2
  let a6 :=
    if n.title ≠ "" ∧ n.title.length > 100 then (a5.1 ++ ["title_too_long"], a5.2 - 10)
    else a5
  let s7 := a6.2 + (if n.album ≠ "" then 5 else 0) + (if n.year ≠ none then 5 else 0)
    + (if n.duration ≠ none then 5 else 0) + (if n.genre ≠ "" then 5 else 0)
  let confidence := if s7 < 70 then "low" else if s7 < 85 then "medium" else "high"
  ({ score := max 0 (min 100 s7), issues := a6.1, confidence := confidence }, a4.1)

/-- The freshly built record of `normalizeSong` before the processing steps
run. -/
def initialNormalized (env : Env) (song : Song) : Normalized :=
  { original := song
    title := cleanText song.title
    artist := cleanText song.artist
    album := cleanText song.album
    genre := cleanText song.genre
    year := validateYear env.currentYear song.year
    duration := validateDuration song.duration
    playCount := validatePlayCount song.playCount
    features := []
    version := none
    isLive := false
    isRemix := false
    isInstrumental := false
    isExplicit := false
    searchTitle := ""
    searchArtist := ""
    searchAlbum := ""
    quality := { score := 0, issues := [], confidence := "high" }
    processedTimestamp := env.now
    processedProcessor := "SongNormalizer v1.0" }

/-- Embedding of `processTitle`: version extraction (which can throw), the
flags derived from the version text, feature extraction, and title casing. -/
def processTitle (n : Normalized) : Except Unit Normalized :=
  if n.title = "" then
    .ok { n with quality := { n.quality with issues := n.quality.issues ++ ["missing_title"] } }
  else
    match extractVersionInfo n.title with
    | .error e => .error e
    | .ok versionMatch =>
      let step1 :=
        match versionMatch with
        | some vm =>
          ({ n with
              version := some vm.1
              isLive := containsCI vm.1 "live".data
              isRemix := endsWithCI vm.1 "remix".data || endsWithCI vm.1 "mix".data
              isInstrumental := containsCI vm.1 "instrumental".data
              isExplicit := containsCI vm.1 "explicit".data }, vm.2)
        | none => (n, n.title)
      let tf := extractFeatures step1.2
      let step2 :=
        if tf.1.length > 0 then ({ step1.1 with features := step1.1.features ++ tf.1 }, tf.2)
        else step1
      .ok { step2.1 with title := toTitleCase step2.2 }

/-- Embedding of `processArtist`: article normalization, feature extraction,
multi-artist splitting, title casing, and case-insensitive feature
deduplication. -/
def processArtist (n : Normalized) : Normalized :=
  if n.artist = "" then
    { n with quality := { n.quality with issues := n.quality.issues ++ ["missing_artist"] } }
  else
    let artist1 := normalizeArticles n.artist
    let af := extractFeatures artist1
    let step1 :=
      if af.1.length > 0 then ({ n with features := n.features ++ af.1 }, af.2)
      else (n, artist1)
    let ma := splitMultipleArtists step1.2
    let n2 := { step1.1 with artist := toTitleCase ma.1 }
    let n3 :=
      if ma.2.length > 0 then { n2 with features := n2.features ++ ma.2 } else n2
    { n3 with features := jsDedup (n3.features.map toTitleCase) }

/-- Embedding of `processAlbum`. -/
def processAlbum (n : Normalized) : Normalized :=
  if n.album = "" then n
  else
    let a1 := stripAlbumSuffixWith '(' ')' n.album.data
    let a2 := stripAlbumSuffixWith '[' ']' a1
    { n with album := toTitleCase ⟨a2⟩ }

/-- Embedding of `createSearchStrings`. -/
def createSearchStrings (n : Normalized) : Normalized :=
  { n with
      searchTitle := createSearchString n.title
      searchArtist := createSearchString n.artist
      searchAlbum := createSearchString n.album }

/-- The body of `normalizeSong`'s `try` block: the only raising step is the
version extraction inside `processTitle`. -/
def normalizeInner (env : Env) (st : RegexState) (song : Song) :
    Except Unit (Normalized × RegexState) :=
  match processTitle (initialNormalized env song) with
  | .error e => .error e
  | .ok n1 =>
    let n4 := createSearchStrings (processAlbum (processArtist n1))
    let qs := validateAndScore st n4
    .ok ({ n4 with quality := qs.1 }, qs.2)

/-- Embedding of `createFallbackNormalization`. -/
def createFallbackNormalization (env : Env) (song : Song) : Normalized :=
  { original := song
    title := jsOr song.title "Unknown Title"
    artist := jsOr song.artist "Unknown Artist"
    album := jsOr song.album ""
    genre := jsOr song.genre ""
    year := none
    duration := none
    playCount := none
    features := []
    version := none
    isLive := false
    isRemix := false
    isInstrumental := false
    isExplicit := false
    searchTitle := "unknown title"
    searchArtist := "unknown artist"
    searchAlbum := ""
    quality := { score := 0, issues := ["normalization_failed"], confidence := "low" }
    processedTimestamp := env.now
    processedProcessor := "SongNormalizer v1.0 (fallback)" }

/-- Embedding of `normalizeSong`: the `try`/`catch` that converts any
internal error into the fallback record (the regex state is untouched on the
error path, which is raised before `validateAndScore` runs). -/
def normalizeSong (env : Env) (st : RegexState) (song : Song) : Normalized × RegexState :=
  match normalizeInner env st song with
  | .ok r => r
  | .error _ => (createFallbackNormalization env song, st)

/-- A fixed environment for the concrete scenarios. -/
def env0 : Env := { now := "2025-01-01T00:00:00.000Z", currentYear := 2025 }

/-- The raw record of the version-extraction scenario. -/
def trackLiveSong : Song := { title := some "Track (Live)", artist := some "Queen" }

/-- A raw record whose title makes the version pattern match exactly once
away from the end of the string, so `match[1]` is `undefined` and the title
processing throws. -/
def songLiveTonight : Song := { title := some "Song (Live) Tonight" }

/-- The raw record of the repeated-scoring scenario: a suspicious title and
no artist. -/
def trackOneSong : Song := { title := some "Track 1" }

end SongNormalizer

/-- Classic single-character insert/delete/substitute Levenshtein distance in
its textbook prefix form (the Wagner–Fischer recurrence): `levClassic x y i j`
is the edit distance between the first `i` characters of `x` and the first `j`
characters of `y`. -/
def levClassic (x y : List Char) : Nat → Nat → Nat
  | 0, j => j
  | i + 1, 0 => i + 1
  | i + 1, j + 1 =>
    if x[i]? = y[j]? then levClassic x y i j
    else 1 + min (levClassic x y i j) (min (levClassic x y (i + 1) j) (levClassic x y i (j + 1)))
  termination_by i j => (i, j)

/-- The classic Levenshtein distance between two strings. -/
def levSpecStr (a b : String) : Nat := levClassic a.data b.data a.length b.length

/-- Jaccard similarity as worded by the specification: the ratio of the
intersection size to the union size of the sets of non-empty
whitespace-separated tokens (`ℚ` division returns 0 on an empty union). -/
def specJaccard (a b : String) : ℚ :=
  let A := (jsTokens a).toFinset
  let B := (jsTokens b).toFinset
  ((A ∩ B).card : ℚ) / ((A ∪ B).card : ℚ)

/-- The similarity formula as worded by the claim:
`0.6 * ((maxLen - lev(a,b)) / maxLen) + 0.4 * jaccard(a,b)` with the edge
cases "equal strings yield 1" (covering both-empty) and "exactly one empty
yields 0". -/
def specStringSimilarity (a b : String) : ℚ :=
  if a = b then 1
  else if a = "" ∨ b = "" then 0
  else
    let maxLen : ℚ := ((max a.length b.length : ℕ) : ℚ)
    0.6 * ((maxLen - (levSpecStr a b : ℚ)) / maxLen) + 0.4 * specJaccard a b

-- ======================================================================
-- Theorems.  (All definitions appear above this line.)
-- ======================================================================

set_option maxRecDepth 16384

theorem levClassic_zero_left (x y : List Char) (j : Nat) : levClassic x y 0 j = j := by
  simp [levClassic]

theorem levClassic_zero_right (x y : List Char) (i : Nat) : levClassic x y i 0 = i := by
  cases i <;> simp [levClassic]

theorem levClassic_succ_succ (x y : List Char) (i j : Nat) :
    levClassic x y (i + 1) (j + 1) =
      if x[i]? = y[j]? then levClassic x y i j
      else 1 + min (levClassic x y i j)
        (min (levClassic x y (i + 1) j) (levClassic x y i (j + 1))) := by
  simp [levClassic]

/-- The classic Levenshtein recurrence is symmetric in its two strings. -/
theorem levClassic_symm (x y : List Char) : ∀ i j, levClassic x y i j = levClassic y x j i := by
  intro i
  induction i with
  | zero =>
    intro j
    rw [levClassic_zero_left, levClassic_zero_right]
  | succ i ih =>
    intro j
    induction j with
    | zero => rw [levClassic_zero_left, levClassic_zero_right]
    | succ j ih2 =>
      rw [levClassic_succ_succ, levClassic_succ_succ, ih j, ih (j + 1), ih2]
      by_cases h : x[i]? = y[j]?
      · rw [if_pos h, if_pos h.symm]
      · rw [if_neg h, if_neg (fun e => h e.symm),
          Nat.min_comm (levClassic y x j (i + 1)) (levClassic y x (j + 1) i)]

/-- One row of the dynamic program is correct: if the previous row holds the
classic prefix distances for row `i`, `levRowAux` produces the distances for
row `i+1`. -/
theorem levRowAux_eq (x y : List Char) (i : Nat) (c2 : Char) (hc2 : x[i]? = some c2) :
    ∀ (k j : Nat), j + k = y.length →
    TrackComparison.levRowAux c2 (y.drop j)
        ((List.range' j (k + 1)).map (fun t => levClassic x y i t))
        (levClassic x y (i + 1) j)
      = (List.range' (j + 1) k).map (fun t => levClassic x y (i + 1) t) := by
  intro k
  induction k with
  | zero =>
    intro j hj
    have hnil : y.drop j = [] := List.drop_eq_nil_of_le (by omega)
    rw [hnil]
    simp [TrackComparison.levRowAux]
  | succ k ih =>
    intro j hj
    have hjlen : j < y.length := by omega
    have hyj : y[j]? = some y[j] := List.getElem?_eq_getElem hjlen
    have hcell : (if c2 = y[j] then levClassic x y i j
        else min (levClassic x y i j + 1)
          (min (levClassic x y (i + 1) j + 1) (levClassic x y i (j + 1) + 1)))
        = levClassic x y (i + 1) (j + 1) := by
      rw [levClassic_succ_succ, hc2, hyj]
      simp only [Option.some.injEq]
      by_cases h : c2 = y[j]
      · simp [h]
      · simp only [if_neg h]
        omega
    have hup : ((List.range' (j + 1) (k + 1)).map (fun t => levClassic x y i t)).headD 0
        = levClassic x y i (j + 1) := by
      rw [List.range'_succ]
      simp
    rw [List.drop_eq_getElem_cons hjlen, List.range'_succ, List.map_cons]
    simp only [TrackComparison.levRowAux]
    rw [hup, hcell, ih (j + 1) (by omega)]
    conv_rhs => rw [List.range'_succ, List.map_cons]

/-- Iterating the row construction over the remaining characters of `x` turns
the row of prefix distances for row `i` into the final row. -/
theorem levRowsGo_eq (x y : List Char) :
    ∀ (rest : List Char) (i : Nat), i ≤ x.length → x.drop i = rest →
    TrackComparison.levRowsGo y rest
        ((List.range' 0 (y.length + 1)).map (fun t => levClassic x y i t)) i
      = (List.range' 0 (y.length + 1)).map (fun t => levClassic x y x.length t) := by
  intro rest
  induction rest with
  | nil =>
    intro i hle hdrop
    have hlen := congrArg List.length hdrop
    simp [List.length_drop] at hlen
    have hi : i = x.length := by omega
    subst hi
    simp [TrackComparison.levRowsGo]
  | cons c2 rest' ih =>
    intro i hle hdrop
    have hlen := congrArg List.length hdrop
    simp [List.length_drop] at hlen
    have hilen : i < x.length := by omega
    have hc2 : x[i]? = some c2 := by
      have h1 := congrArg List.head? hdrop
      rw [List.head?_drop] at h1
      simpa using h1
    have hrest : x.drop (i + 1) = rest' := by
      have h2 := congrArg List.tail hdrop
      rw [List.tail_drop] at h2
      simpa using h2
    simp only [TrackComparison.levRowsGo]
    have htail := levRowAux_eq x y i c2 hc2 y.length 0 (by omega)
    rw [List.drop_zero, levClassic_zero_right] at htail
    have hrow : (i + 1) :: TrackComparison.levRowAux c2 y
        ((List.range' 0 (y.length + 1)).map (fun t => levClassic x y i t)) (i + 1)
        = (List.range' 0 (y.length + 1)).map (fun t => levClassic x y (i + 1) t) := by
      rw [htail]
      conv_rhs => rw [List.range'_succ, List.map_cons]
      rw [levClassic_zero_right]
    rw [hrow]
    exact ih (i + 1) (by omega) hrest

/-- The embedded dynamic program computes the classic Levenshtein distance
(with `str2` indexing the rows and `str1` the columns). -/
theorem levenshteinDistance_eq_levClassic (a b : String) :
    TrackComparison.levenshteinDistance a b
      = levClassic b.data a.data b.data.length a.data.length := by
  unfold TrackComparison.levenshteinDistance
  by_cases ha : a = ""
  · rw [if_pos (by simp [ha])]
    subst ha
    rw [show ("" : String).data = [] from rfl,
      show List.length ([] : List Char) = 0 from rfl, levClassic_zero_right]
    simp [String.length_empty]
  · by_cases hb : b = ""
    · rw [if_pos (by simp [hb])]
      subst hb
      rw [show ("" : String).data = [] from rfl,
        show List.length ([] : List Char) = 0 from rfl, levClassic_zero_left]
      simp [String.length_empty]
    · rw [if_neg (by simp [ha, hb])]
      rw [show a.length = a.data.length from rfl]
      have hmap : List.range' 0 (a.data.length + 1)
          = (List.range' 0 (a.data.length + 1)).map (fun t => levClassic b.data a.data 0 t) := by
        have h1 : ∀ t ∈ List.range' 0 (a.data.length + 1),
            t = levClassic b.data a.data 0 t := fun t _ => (levClassic_zero_left _ _ t).symm
        calc List.range' 0 (a.data.length + 1)
            = (List.range' 0 (a.data.length + 1)).map id := (List.map_id _).symm
          _ = _ := List.map_congr_left h1
      rw [List.range_eq_range', hmap,
        levRowsGo_eq b.data a.data b.data 0 (Nat.zero_le _) (List.drop_zero _),
        ← List.range_eq_range', List.range_succ, List.map_append]
      simp

theorem jsDedupAux_mem (x : String) :
    ∀ (l seen : List String), x ∈ jsDedupAux seen l ↔ x ∈ l ∧ x ∉ seen := by
  intro l
  induction l with
  | nil => intro seen; simp [jsDedupAux]
  | cons y ys ih =>
    intro seen
    by_cases hy : y ∈ seen
    · rw [jsDedupAux, if_pos hy, ih]
      constructor
      · exact fun ⟨h1, h2⟩ => ⟨List.mem_cons_of_mem _ h1, h2⟩
      · rintro ⟨h1, h2⟩
        rcases List.mem_cons.mp h1 with h | h
        · exact absurd (h ▸ hy) h2
        · exact ⟨h, h2⟩
    · rw [jsDedupAux, if_neg hy]
      simp only [List.mem_cons, ih]
      constructor
      · rintro (h | ⟨h1, h2⟩)
        · exact ⟨Or.inl h, h ▸ hy⟩
        · exact ⟨Or.inr h1, fun hs => h2 (Or.inr hs)⟩
      · rintro ⟨h1 | h1, h2⟩
        · exact Or.inl h1
        · by_cases hxy : x = y
          · exact Or.inl hxy
          · exact Or.inr ⟨h1, by simp [hxy, h2]⟩

theorem jsDedupAux_nodup : ∀ (l seen : List String), (jsDedupAux seen l).Nodup := by
  intro l
  induction l with
  | nil => intro seen; simp [jsDedupAux]
  | cons y ys ih =>
    intro seen
    by_cases hy : y ∈ seen
    · rw [jsDedupAux, if_pos hy]; exact ih seen
    · rw [jsDedupAux, if_neg hy]
      refine List.Nodup.cons ?_ (ih (y :: seen))
      intro hmem
      exact ((jsDedupAux_mem y ys (y :: seen)).mp hmem).2 (List.mem_cons_self _ _)

theorem jsDedup_toFinset (l : List String) : (jsDedup l).toFinset = l.toFinset := by
  ext x
  simp [jsDedup, List.mem_toFinset, jsDedupAux_mem]

theorem jsDedup_length (l : List String) : (jsDedup l).length = l.toFinset.card := by
  rw [← jsDedup_toFinset l]
  exact (List.toFinset_card_of_nodup (jsDedupAux_nodup l [])).symm

theorem jsDedup_mem (x : String) (l : List String) : x ∈ jsDedup l ↔ x ∈ l := by
  simp [jsDedup, jsDedupAux_mem]

/-- The union size computed JavaScript-style equals the union cardinality of
the token Finsets. -/
theorem jsUnion_length (t1 t2 : List String) :
    (jsDedup (jsDedup t1 ++ jsDedup t2)).length = (t1.toFinset ∪ t2.toFinset).card := by
  rw [jsDedup_length, List.toFinset_append, jsDedup_toFinset, jsDedup_toFinset]

/-- The intersection size computed JavaScript-style equals the intersection
cardinality of the token Finsets. -/
theorem jsInter_length (t1 t2 : List String) :
    (jsDedup ((jsDedup t1).filter (fun x => t2.contains x))).length
      = (t1.toFinset ∩ t2.toFinset).card := by
  rw [jsDedup_length, List.toFinset_filter, jsDedup_toFinset]
  congr 1
  ext x
  simp [List.elem_iff, Finset.mem_filter, Finset.mem_inter, List.mem_toFinset]

theorem strLength_ne_zero {s : String} (h : s ≠ "") : s.length ≠ 0 :=
  fun h0 => h (String.ext (List.length_eq_zero.mp h0))

/-- The embedded Levenshtein computation equals the classic distance of its
two arguments in either argument order. -/
theorem levenshteinDistance_eq_levSpecStr (a b : String) :
    TrackComparison.levenshteinDistance a b = levSpecStr a b := by
  rw [levenshteinDistance_eq_levClassic, levClassic_symm]
  rfl

theorem levenshteinDistance_swap_eq_levSpecStr (a b : String) :
    TrackComparison.levenshteinDistance b a = levSpecStr a b := by
  rw [levenshteinDistance_eq_levClassic]
  rfl

/-- The Jaccard value computed by the code (token Sets, guard on empty union)
equals the specification's ratio of Finset cardinalities. -/
theorem jsJaccardVal_eq (a b : String) :
    (if (jsDedup (jsDedup (jsTokens a) ++ jsDedup (jsTokens b))).length > 0
      then ((jsDedup ((jsDedup (jsTokens a)).filter
              (fun x => (jsDedup (jsTokens b)).contains x))).length : ℚ)
            / ((jsDedup (jsDedup (jsTokens a) ++ jsDedup (jsTokens b))).length : ℚ)
      else 0)
    = specJaccard a b := by
  rw [jsInter_length (jsTokens a) (jsDedup (jsTokens b)), jsUnion_length, jsDedup_toFinset]
  unfold specJaccard
  rcases Nat.eq_zero_or_pos ((jsTokens a).toFinset ∪ (jsTokens b).toFinset).card with h | h
  · rw [if_neg (by omega)]
    simp [h]
  · rw [if_pos h]

/-- Claim C1: for every pair of strings `a`, `b`, the similarity engine's
`calculateStringSimilarity(a, b)` equals
`0.6 * ((maxLen - lev(a,b)) / maxLen) + 0.4 * jaccard(a,b)` where `lev` is the
classic insert/delete/substitute Levenshtein distance,
`maxLen = max(|a|,|b|)`, and `jaccard` is the intersection-over-union ratio of
the non-empty whitespace token sets; with the edge cases: equal strings yield
1, both empty yield 1, and exactly one empty yields 0. -/
theorem C1_similarity_formula (a b : String) :
    TrackComparison.calculateStringSimilarity a b = specStringSimilarity a b := by
  unfold TrackComparison.calculateStringSimilarity specStringSimilarity
  by_cases hab : a = b
  · subst hab
    by_cases ha : a = ""
    · simp [ha]
    · simp [ha]
  · by_cases ha : a = ""
    · have hb : b ≠ "" := fun h => hab (by rw [ha, h])
      simp [ha, hb, hab]
      rw [if_neg (fun h => hb h.symm)]
    · by_cases hb : b = ""
      · simp [ha, hb, hab]
      · simp only [ha, hb, hab]
        rw [if_neg (by decide), if_neg (by decide), if_neg not_false, if_neg not_false]
        by_cases hlen : a.length > b.length
        · simp only [if_pos hlen]
          rw [if_neg (strLength_ne_zero ha), if_neg (by simp : ¬(False ∨ False)),
            levenshteinDistance_eq_levSpecStr,
            jsJaccardVal_eq, Nat.max_eq_left (le_of_lt hlen)]
          ring
        · simp only [if_neg hlen]
          rw [if_neg (strLength_ne_zero hb), if_neg (by simp : ¬(False ∨ False)),
            levenshteinDistance_swap_eq_levSpecStr,
            jsJaccardVal_eq, Nat.max_eq_right (le_of_not_lt hlen)]
          ring

section ConcreteEvalA

-- Batteries marks the `Rat` field operations `@[irreducible]`, which blocks
-- the `decide` tactic's evaluator (the kernel itself reduces them fine).
-- Restore default reducibility locally, only around the theorems that
-- evaluate the embedded code at concrete inputs by `decide`.
attribute [local semireducible] Rat.add Rat.mul Rat.inv Rat.sub Rat.ofScientific

/-- Claim C3 (counterexample): running duplicate detection for the candidate
`{title: "Thriller (2003 Remaster)", artist: "Michael Jackson"}` against the
collection `[{name: "Thriller", artists: ["Michael Jackson"]}]` does NOT
return an `isDuplicate = true` verdict with method `"core_signature"`: the
core-title scrub removes only the word `remaster`, leaving `2003`, so the core
signatures differ. -/
theorem C3_core_signature_counterexample :
    ¬((TrackComparison.isTrackAlreadyInPlaylist
          (some TrackComparison.thrillerRemasterCandidate)
          (.arr [some TrackComparison.thrillerExisting])).isDuplicate = true ∧
      (TrackComparison.isTrackAlreadyInPlaylist
          (some TrackComparison.thrillerRemasterCandidate)
          (.arr [some TrackComparison.thrillerExisting])).method
        = some "core_signature") := by
  decide

/-- Claim C3 (amended): duplicate detection for the candidate
`{title: "Thriller (2003 Remaster)", artist: "Michael Jackson"}` against
`[{name: "Thriller", artists: ["Michael Jackson"]}]` returns the non-duplicate
verdict: the candidate's core signature keeps the year
(`"thriller 2003|||michael jackson"`), unlike the existing track's
(`"thriller|||michael jackson"`), and the overall weighted similarity is
`617/1100 ≈ 0.561`, below every similarity threshold. -/
theorem C3_remaster_not_duplicate :
    TrackComparison.isTrackAlreadyInPlaylist
        (some TrackComparison.thrillerRemasterCandidate)
        (.arr [some TrackComparison.thrillerExisting])
      = TrackComparison.noDuplicate ∧
    TrackComparison.createCoreTrackSignature TrackComparison.thrillerRemasterCandidate
      = "thriller 2003|||michael jackson" ∧
    TrackComparison.createCoreTrackSignature TrackComparison.thrillerExisting
      = "thriller|||michael jackson" ∧
    (TrackComparison.calculateTrackSimilarity TrackComparison.thrillerRemasterCandidate
        TrackComparison.thrillerExisting).overall = 617/1100 := by
  refine ⟨by decide, by decide, by decide, by decide⟩

/-- Claim C9: whenever both the candidate's and the existing track's title and
artist normalize to empty search strings and both have no album, the signature
tiers are skipped by the `length > 6` guard but the similarity tier fires:
`calculateStringSimilarity("", "") = 1` for title and artist, album component
0, overall `0.6 + 0.35 = 0.95 > 0.90`, so the verdict is a duplicate with
method `"high_similarity"` and confidence `0.95`. -/
theorem C9_empty_search_strings_high_similarity (t1 t2 : TrackComparison.Track)
    (h1t : (TrackComparison.normalizeSong t1).searchTitle = "")
    (h1a : (TrackComparison.normalizeSong t1).searchArtist = "")
    (h1b : (TrackComparison.normalizeSong t1).searchAlbum = "")
    (h2t : (TrackComparison.normalizeSong t2).searchTitle = "")
    (h2a : (TrackComparison.normalizeSong t2).searchArtist = "")
    (h2b : (TrackComparison.normalizeSong t2).searchAlbum = "") :
    TrackComparison.isTrackAlreadyInPlaylist (some t1) (.arr [some t2])
      = { isDuplicate := true, method := some "high_similarity", confidence := 19/20,
          existingTrack := some t2 } := by
  have s1 : TrackComparison.createTrackSignature t1 = "|||" := by
    simp only [TrackComparison.createTrackSignature]
    rw [h1t, h1a]
    rfl
  have s2 : TrackComparison.createTrackSignature t2 = "|||" := by
    simp only [TrackComparison.createTrackSignature]
    rw [h2t, h2a]
    rfl
  have c1 : TrackComparison.createCoreTrackSignature t1 = "|||" := by
    simp only [TrackComparison.createCoreTrackSignature]
    rw [h1t, h1a]
    rfl
  have c2 : TrackComparison.createCoreTrackSignature t2 = "|||" := by
    simp only [TrackComparison.createCoreTrackSignature]
    rw [h2t, h2a]
    rfl
  have hov : (TrackComparison.calculateTrackSimilarity t1 t2).overall = 19/20 := by
    simp only [TrackComparison.calculateTrackSimilarity]
    rw [h1t, h2t, h1a, h2a, h1b, h2b]
    decide
  simp only [TrackComparison.isTrackAlreadyInPlaylist, TrackComparison.isDupLoop]
  rw [s1, s2, c1, c2, hov]
  rw [if_neg (by decide), if_neg (by decide), if_pos (by decide)]

/-- Witness for C9 at a concrete pair of tracks built from punctuation-only
titles and artists. -/
theorem C9_empty_search_strings_witness :
    ((TrackComparison.normalizeSong TrackComparison.emptySearchCandidate).searchTitle = "" ∧
     (TrackComparison.normalizeSong TrackComparison.emptySearchExisting).searchTitle = "") ∧
    TrackComparison.isTrackAlreadyInPlaylist (some TrackComparison.emptySearchCandidate)
        (.arr [some TrackComparison.emptySearchExisting])
      = { isDuplicate := true, method := some "high_similarity", confidence := 19/20,
          existingTrack := some TrackComparison.emptySearchExisting } :=
  ⟨⟨by decide, by decide⟩,
    C9_empty_search_strings_high_similarity
      TrackComparison.emptySearchCandidate TrackComparison.emptySearchExisting
      (by decide) (by decide) (by decide) (by decide) (by decide) (by decide)⟩

/-- Claim C10: duplicate detection with a null/undefined, non-array, or empty
existing collection returns the non-duplicate verdict (`isDuplicate = false`,
`confidence = 0`, no matched track) for every candidate, and cannot throw
(the embedding is a total function). -/
theorem C10_degenerate_collection (t : TrackComparison.Track)
    (arg : TrackComparison.ExistingTracksArg)
    (h : arg = .nullish ∨ arg = .nonArray ∨ arg = .arr []) :
    TrackComparison.isTrackAlreadyInPlaylist (some t) arg = TrackComparison.noDuplicate := by
  rcases h with h | h | h <;> subst h <;> rfl

/-- Witness for C10 at a concrete candidate and the null collection. -/
theorem C10_degenerate_collection_witness :
    TrackComparison.isTrackAlreadyInPlaylist
        (some { title := some "Song X", artist := some "Artist Y" })
        TrackComparison.ExistingTracksArg.nullish
      = TrackComparison.noDuplicate :=
  C10_degenerate_collection _ _ (Or.inl rfl)

end ConcreteEvalA

/-- Invariants of the candidate-scoring fold of `scoreAndSelectBestMatch`,
generalized over the fold's starting value: the confidence never decreases,
dominates every candidate's score, and the final value is either the start or
carries some candidate together with exactly its score. -/
theorem scoreFold_spec (song : SpotifySearch.SearchSong) :
    ∀ (cands : List SpotifySearch.Candidate) (b0 : SpotifySearch.BestMatch),
      b0.confidence ≤
        (cands.foldl
          (fun best candidate =>
            let confidence := SpotifySearch.scoreCandidate song candidate
            if best.confidence < confidence then
              { matched := some candidate, confidence := confidence }
            else best) b0).confidence ∧
      (∀ c ∈ cands,
        SpotifySearch.scoreCandidate song c ≤
          (cands.foldl
            (fun best candidate =>
              let confidence := SpotifySearch.scoreCandidate song candidate
              if best.confidence < confidence then
                { matched := some candidate, confidence := confidence }
              else best) b0).confidence) ∧
      ((cands.foldl
          (fun best candidate =>
            let confidence := SpotifySearch.scoreCandidate song candidate
            if best.confidence < confidence then
              { matched := some candidate, confidence := confidence }
            else best) b0) = b0 ∨
        ∃ c ∈ cands,
          (cands.foldl
            (fun best candidate =>
              let confidence := SpotifySearch.scoreCandidate song candidate
              if best.confidence < confidence then
                { matched := some candidate, confidence := confidence }
              else best) b0)
          = { matched := some c, confidence := SpotifySearch.scoreCandidate song c }) := by
  intro cands
  induction cands with
  | nil => intro b0; exact ⟨le_refl _, by simp, Or.inl rfl⟩
  | cons c cs ih =>
    intro b0
    simp only [List.foldl_cons]
    set b1 := (fun best candidate =>
      let confidence := SpotifySearch.scoreCandidate song candidate
      if best.confidence < confidence then
        ({ matched := some candidate, confidence := confidence } : SpotifySearch.BestMatch)
      else best) b0 c with hb1
    obtain ⟨ih1, ih2, ih3⟩ := ih b1
    have hb0le : b0.confidence ≤ b1.confidence := by
      rw [hb1]
      by_cases h : b0.confidence < SpotifySearch.scoreCandidate song c
      · simp only [if_pos h]
        exact le_of_lt h
      · simp only [if_neg h]
        exact le_refl _
    have hcle : SpotifySearch.scoreCandidate song c ≤ b1.confidence := by
      rw [hb1]
      by_cases h : b0.confidence < SpotifySearch.scoreCandidate song c
      · simp only [if_pos h]
        exact le_refl _
      · simp only [if_neg h]
        exact le_of_not_lt h
    refine ⟨le_trans hb0le ih1, ?_, ?_⟩
    · intro c' hc'
      rcases List.mem_cons.mp hc' with h | h
      · subst h
        exact le_trans hcle ih1
      · exact ih2 c' h
    · rcases ih3 with h | ⟨c', hc', hres⟩
      · rw [h, hb1]
        by_cases hlt : b0.confidence < SpotifySearch.scoreCandidate song c
        · exact Or.inr ⟨c, List.mem_cons_self _ _, by simp only [if_pos hlt]⟩
        · exact Or.inl (by simp only [if_neg hlt])
      · exact Or.inr ⟨c', List.mem_cons_of_mem _ hc', hres⟩

/-- The attempt loop issues at most `gas` search calls. -/
theorem searchFrom_calls_le (song : SpotifySearch.SearchSong)
    (responses : Nat → SpotifySearch.SearchOutcome) :
    ∀ gas attempt, (SpotifySearch.searchFrom song responses gas attempt).calls ≤ gas := by
  intro gas
  induction gas with
  | zero => intro attempt; simp [SpotifySearch.searchFrom]
  | succ gas ih =>
    intro attempt
    cases hr : responses attempt with
    | success items =>
      by_cases h : items.length > 0 <;> simp [SpotifySearch.searchFrom, hr, h]
    | rateLimited ra =>
      simp only [SpotifySearch.searchFrom, hr]
      have := ih (attempt + 1)
      omega
    | failure => simp [SpotifySearch.searchFrom, hr]

/-- If every response is a rate limit, the loop spends all its gas and returns
`null`. -/
theorem searchFrom_all_rateLimited (song : SpotifySearch.SearchSong)
    (responses : Nat → SpotifySearch.SearchOutcome)
    (h : ∀ a, ∃ ra, responses a = SpotifySearch.SearchOutcome.rateLimited ra) :
    ∀ gas attempt, (SpotifySearch.searchFrom song responses gas attempt).result = none ∧
      (SpotifySearch.searchFrom song responses gas attempt).calls = gas := by
  intro gas
  induction gas with
  | zero => intro attempt; exact ⟨rfl, rfl⟩
  | succ gas ih =>
    intro attempt
    obtain ⟨ra, hra⟩ := h attempt
    have := ih (attempt + 1)
    simp only [SpotifySearch.searchFrom, hra]
    exact ⟨this.1, by rw [this.2]⟩

/-- Claim C7: for every strategy, a rate-limit response at attempt `a` makes
the same strategy retry after sleeping
`max(baseDelay * 2^a, retryAfter * 1000)`; at most `maxRetries + 1 = 4` calls
(3 retries) are made before the strategy gives up; when every response is
rate-limited the strategy returns `null` after exactly 4 calls; any other
error aborts the strategy immediately with a single call and no delay; and a
strategy that returned `null` makes `searchTrackSmart` move on to the next
strategy. -/
theorem C7_rate_limit_retry_policy (song : SpotifySearch.SearchSong)
    (responses : Nat → SpotifySearch.SearchOutcome) :
    (∀ gas attempt ra,
      responses attempt = SpotifySearch.SearchOutcome.rateLimited ra →
      SpotifySearch.searchFrom song responses (gas + 1) attempt =
        { result := (SpotifySearch.searchFrom song responses gas (attempt + 1)).result,
          delays := max (SpotifySearch.baseDelay * 2 ^ attempt) ((ra.getD 1) * 1000)
            :: (SpotifySearch.searchFrom song responses gas (attempt + 1)).delays,
          calls := (SpotifySearch.searchFrom song responses gas (attempt + 1)).calls + 1 }) ∧
    ((SpotifySearch.searchWithStrategy song responses).calls ≤ SpotifySearch.maxRetries + 1) ∧
    ((∀ a, ∃ ra, responses a = SpotifySearch.SearchOutcome.rateLimited ra) →
      (SpotifySearch.searchWithStrategy song responses).result = none ∧
      (SpotifySearch.searchWithStrategy song responses).calls = SpotifySearch.maxRetries + 1) ∧
    (∀ gas attempt,
      responses attempt = SpotifySearch.SearchOutcome.failure →
      SpotifySearch.searchFrom song responses (gas + 1) attempt =
        { result := none, delays := [], calls := 1 }) ∧
    (∀ rest, (SpotifySearch.searchWithStrategy song responses).result = none →
      SpotifySearch.searchTrackSmart song (responses :: rest) =
        SpotifySearch.searchTrackSmart song rest) := by
  refine ⟨?_, ?_, ?_, ?_, ?_⟩
  · intro gas attempt ra h
    simp [SpotifySearch.searchFrom, h]
  · exact searchFrom_calls_le song responses (SpotifySearch.maxRetries + 1) 0
  · intro h
    exact searchFrom_all_rateLimited song responses h (SpotifySearch.maxRetries + 1) 0
  · intro gas attempt h
    simp [SpotifySearch.searchFrom, h]
  · intro rest h
    simp [SpotifySearch.searchTrackSmart, h]

/-- Witness for C7: a stream that always answers 429 with `retry-after: 2`
exhausts all four calls of a strategy and yields no result. -/
theorem C7_rate_limit_retry_policy_witness :
    (SpotifySearch.searchWithStrategy { title := "t", artist := "a" }
        (fun _ => SpotifySearch.SearchOutcome.rateLimited (some 2))).result = none ∧
    (SpotifySearch.searchWithStrategy { title := "t", artist := "a" }
        (fun _ => SpotifySearch.SearchOutcome.rateLimited (some 2))).calls
      = SpotifySearch.maxRetries + 1 :=
  (C7_rate_limit_retry_policy { title := "t", artist := "a" }
      (fun _ => SpotifySearch.SearchOutcome.rateLimited (some 2))).2.2.1
    (fun _ => ⟨some 2, rfl⟩)

/-- Claim C4 (amended): for every strategy, a non-empty candidate list makes
the strategy return the result of `scoreAndSelectBestMatch`, which scores each
candidate as `0.7 * titleScore + 0.3 * artistScore` where both scores are the
`string-similarity` library's Dice bigram coefficient (`compareTwoStrings`) of
the normalized strings — not the §4.3 Levenshtein/Jaccard engine — and keeps
the candidate with the maximum such score (`null` with confidence 0 when no
score beats 0). -/
theorem C4_dice_scoring_argmax (song : SpotifySearch.SearchSong)
    (candidates : List SpotifySearch.Candidate) :
    (∀ c ∈ candidates,
      SpotifySearch.scoreCandidate song c ≤
        (SpotifySearch.scoreAndSelectBestMatch song candidates).confidence) ∧
    ((SpotifySearch.scoreAndSelectBestMatch song candidates).matched = none →
      (SpotifySearch.scoreAndSelectBestMatch song candidates).confidence = 0) ∧
    (∀ c, (SpotifySearch.scoreAndSelectBestMatch song candidates).matched = some c →
      c ∈ candidates ∧
        (SpotifySearch.scoreAndSelectBestMatch song candidates).confidence
          = SpotifySearch.scoreCandidate song c) ∧
    (∀ responses gas attempt items,
      responses attempt = SpotifySearch.SearchOutcome.success items →
      items.length > 0 →
      SpotifySearch.searchFrom song responses (gas + 1) attempt =
        { result := some (SpotifySearch.scoreAndSelectBestMatch song items),
          delays := [], calls := 1 }) := by
  obtain ⟨h1, h2, h3⟩ :=
    scoreFold_spec song candidates { matched := none, confidence := 0 }
  refine ⟨h2, ?_, ?_, ?_⟩
  · intro hnone
    rcases h3 with h | ⟨c, hc, hres⟩
    · rw [SpotifySearch.scoreAndSelectBestMatch, h]
    · rw [SpotifySearch.scoreAndSelectBestMatch, hres] at hnone
      simp at hnone
  · intro c hmatch
    rcases h3 with h | ⟨c', hc', hres⟩
    · rw [SpotifySearch.scoreAndSelectBestMatch, h] at hmatch
      simp at hmatch
    · rw [SpotifySearch.scoreAndSelectBestMatch, hres] at hmatch
      simp only [Option.some.injEq] at hmatch
      subst hmatch
      exact ⟨hc', by rw [SpotifySearch.scoreAndSelectBestMatch, hres]⟩
  · intro responses gas attempt items h hlen
    simp [SpotifySearch.searchFrom, h, hlen]

section ConcreteEvalB

attribute [local semireducible] Rat.add Rat.mul Rat.inv Rat.sub Rat.ofScientific

/-- Claim C4 (counterexample): for the song `{title: "abc", artist: "x"}` and
the single candidate `{name: "acb", artists: ["x"]}`, the selector's
confidence is `0.3` (Dice bigram scores: title 0, artist 1), while
`0.7 * titleSimilarity + 0.3 * artistSimilarity` computed with the §4.3
similarity engine is `11/25 = 0.44`; the scorer therefore does not use the
§4.3 engine. -/
theorem C4_dice_not_engine_counterexample :
    (SpotifySearch.scoreAndSelectBestMatch SpotifySearch.diceSong
        [SpotifySearch.diceCandidate]).confidence = 3/10 ∧
    0.7 * TrackComparison.calculateStringSimilarity
        (SpotifySearch.normalize SpotifySearch.diceSong.title)
        (SpotifySearch.normalize SpotifySearch.diceCandidate.name)
      + 0.3 * TrackComparison.calculateStringSimilarity
        (SpotifySearch.normalize SpotifySearch.diceSong.artist)
        (SpotifySearch.normalize (String.intercalate " "
          (SpotifySearch.diceCandidate.artists.map SpotifySearch.normalize)))
      = 11/25 ∧
    (3/10 : ℚ) ≠ 11/25 :=
  ⟨by decide, by decide, by decide⟩

/-- Witness for C4 at the concrete song and singleton candidate list. -/
theorem C4_dice_scoring_argmax_witness :
    SpotifySearch.scoreCandidate SpotifySearch.diceSong SpotifySearch.diceCandidate ≤
      (SpotifySearch.scoreAndSelectBestMatch SpotifySearch.diceSong
        [SpotifySearch.diceCandidate]).confidence ∧
    SpotifySearch.searchFrom SpotifySearch.diceSong
        (fun _ => SpotifySearch.SearchOutcome.success [SpotifySearch.diceCandidate])
        (SpotifySearch.maxRetries + 1) 0
      = { result := some (SpotifySearch.scoreAndSelectBestMatch SpotifySearch.diceSong
            [SpotifySearch.diceCandidate]),
          delays := [], calls := 1 } :=
  ⟨(C4_dice_scoring_argmax SpotifySearch.diceSong [SpotifySearch.diceCandidate]).1
      SpotifySearch.diceCandidate (by simp),
    (C4_dice_scoring_argmax SpotifySearch.diceSong [SpotifySearch.diceCandidate]).2.2.2
      (fun _ => SpotifySearch.SearchOutcome.success [SpotifySearch.diceCandidate])
      SpotifySearch.maxRetries 0 [SpotifySearch.diceCandidate] rfl (by decide)⟩

end ConcreteEvalB

/-- Claim C8: the cache fingerprint is deterministic (two invocations on the
same track yield the same key) and invariant under case and surrounding
whitespace: any two tracks whose resolved title, artist and album fields are
equal after lowercasing and trimming receive the same key, for every hash
function. -/
theorem C8_fingerprint_invariance (md5hex : String → String)
    (t1 t2 : SearchCache.CacheTrack)
    (ht : SearchCache.normalizedTitle t1 = SearchCache.normalizedTitle t2)
    (ha : SearchCache.normalizedArtist t1 = SearchCache.normalizedArtist t2)
    (hb : SearchCache.normalizedAlbum t1 = SearchCache.normalizedAlbum t2) :
    SearchCache.generateTrackKey md5hex t1 = SearchCache.generateTrackKey md5hex t1 ∧
    SearchCache.generateTrackKey md5hex t1 = SearchCache.generateTrackKey md5hex t2 := by
  refine ⟨rfl, ?_⟩
  unfold SearchCache.generateTrackKey
  rw [ht, ha, hb]

/-- Witness for C8: two tracks differing in case, whitespace and field
spelling receive the same key. -/
theorem C8_fingerprint_invariance_witness :
    (SearchCache.normalizedTitle SearchCache.fingerTrackA
        = SearchCache.normalizedTitle SearchCache.fingerTrackB ∧
      SearchCache.normalizedArtist SearchCache.fingerTrackA
        = SearchCache.normalizedArtist SearchCache.fingerTrackB ∧
      SearchCache.normalizedAlbum SearchCache.fingerTrackA
        = SearchCache.normalizedAlbum SearchCache.fingerTrackB) ∧
    SearchCache.generateTrackKey (fun s => s) SearchCache.fingerTrackA
      = SearchCache.generateTrackKey (fun s => s) SearchCache.fingerTrackB :=
  ⟨⟨by decide, by decide, by decide⟩,
    (C8_fingerprint_invariance (fun s => s) SearchCache.fingerTrackA SearchCache.fingerTrackB
      (by decide) (by decide) (by decide)).2⟩

/-- Claim C2 (code evaluation at the failing input): normalizing the raw
record `{title: "Track (Live)", artist: "Queen"}` yields `version = null` and
`isLive = false`, with the title left as `"Track (live"` — not
`version = "Live"`, `isLive = true` as specified.  Two slips combine:
`cleanText` strips the trailing `)` as a trailing non-word character before
version extraction (so no version pattern matches), and even on titles where
a pattern does match once, `match[1]` on a `/g`-flagged regex is the second
full match, not the capture. -/
theorem C2_track_live_version_not_extracted :
    (SongNormalizer.normalizeSong SongNormalizer.env0 {} SongNormalizer.trackLiveSong).1.version
      = none ∧
    (SongNormalizer.normalizeSong SongNormalizer.env0 {} SongNormalizer.trackLiveSong).1.isLive
      = false ∧
    (SongNormalizer.normalizeSong SongNormalizer.env0 {} SongNormalizer.trackLiveSong).1.title
      = "Track (live" ∧
    SongNormalizer.cleanText (some "Track (Live)") = "Track (Live" :=
  ⟨by decide, by decide, by decide, by decide⟩

/-- Claim C5 (code evaluation at the failing input): scoring the same record
`{title: "Track 1"}` twice in succession with the same normalizer state gives
different quality results — the first call flags `suspicious_title` (score
30), the second does not (score 50) — because the `/g`-flagged suspicious
patterns keep a `lastIndex` between `.test()` calls.  The scorer is therefore
not a pure function of the normalized fields. -/
theorem C5_quality_scoring_stateful :
    ((SongNormalizer.normalizeSong SongNormalizer.env0 {} SongNormalizer.trackOneSong).1.quality
      = { score := 30, issues := ["missing_artist", "suspicious_title"], confidence := "low" }) ∧
    ((SongNormalizer.normalizeSong SongNormalizer.env0
        (SongNormalizer.normalizeSong SongNormalizer.env0 {} SongNormalizer.trackOneSong).2
        SongNormalizer.trackOneSong).1.quality
      = { score := 50, issues := ["missing_artist"], confidence := "low" }) ∧
    (SongNormalizer.normalizeSong SongNormalizer.env0 {} SongNormalizer.trackOneSong).1.quality
      ≠ (SongNormalizer.normalizeSong SongNormalizer.env0
          (SongNormalizer.normalizeSong SongNormalizer.env0 {} SongNormalizer.trackOneSong).2
          SongNormalizer.trackOneSong).1.quality :=
  ⟨by decide, by decide, by decide⟩

/-- Claim C6: `normalizeSong` is total (the embedding is a total function,
with the only raising step routed through `normalizeInner`'s `Except`), and
whenever an internal error occurs the returned record is exactly the fallback
record, whose confidence is `"low"`, whose issues contain
`"normalization_failed"`, and whose title/artist default to
`"Unknown Title"`/`"Unknown Artist"` when the raw field is missing or
empty. -/
theorem C6_normalize_total_with_fallback (env : SongNormalizer.Env)
    (st : SongNormalizer.RegexState) (song : SongNormalizer.Song) (e : Unit)
    (h : SongNormalizer.normalizeInner env st song = .error e) :
    SongNormalizer.normalizeSong env st song
      = (SongNormalizer.createFallbackNormalization env song, st) ∧
    (SongNormalizer.createFallbackNormalization env song).quality.confidence = "low" ∧
    "normalization_failed" ∈ (SongNormalizer.createFallbackNormalization env song).quality.issues ∧
    ((song.title = none ∨ song.title = some "") →
      (SongNormalizer.createFallbackNormalization env song).title = "Unknown Title") ∧
    ((song.artist = none ∨ song.artist = some "") →
      (SongNormalizer.createFallbackNormalization env song).artist = "Unknown Artist") := by
  refine ⟨?_, rfl, ?_, ?_, ?_⟩
  · simp [SongNormalizer.normalizeSong, h]
  · simp [SongNormalizer.createFallbackNormalization]
  · rintro (h' | h') <;> simp [SongNormalizer.createFallbackNormalization, jsOr, h']
  · rintro (h' | h') <;> simp [SongNormalizer.createFallbackNormalization, jsOr, h']

/-- Witness for C6: the title `"Song (Live) Tonight"` makes the first version
pattern match exactly once, so `match[1].trim()` throws and the fallback
record is returned. -/
theorem C6_normalize_total_with_fallback_witness :
    SongNormalizer.normalizeInner SongNormalizer.env0 {} SongNormalizer.songLiveTonight
      = Except.error () ∧
    SongNormalizer.normalizeSong SongNormalizer.env0 {} SongNormalizer.songLiveTonight
      = (SongNormalizer.createFallbackNormalization SongNormalizer.env0
          SongNormalizer.songLiveTonight, {}) :=
  ⟨by rfl, (C6_normalize_total_with_fallback SongNormalizer.env0 {}
      SongNormalizer.songLiveTonight () (by rfl)).1⟩
